import Mathlib

/-!
Shallow embedding of the reservation lifecycle engine of the spa-booking
backend (bookingController.js, cleanupExpiredReservations.js).

Modelling conventions:
* Identifiers (UUIDs in the source) are modelled as natural numbers.
* Timestamps are modelled as minutes on a global timeline; a slot or booking
  stores its date as a day index and its start/end as minutes, and the
  absolute appointment time is date * 1440 + start (this mirrors
  new Date(date + "T" + start) in cancelReservation).
* The Supabase store is a record of three row lists.  A select with .single()
  succeeds exactly when one row matches the filters; an update .eq(...)
  mutates every matching row; an insert appends.
* Transient store failures (the error branches the controllers compensate
  for) are modelled by explicit fault flags: a faulted call leaves the store
  unchanged and reports an error, which is how the controllers treat it.
* Each controller awaits several store round trips; the race-relevant
  suspension point (between the initial reads and the writes) is modelled by
  the Seq variants, which take the store the reads see and the store the
  writes apply to.  The plain variants run atomically (both stores equal).
-/

inductive Status where
  | pending
  | confirmed
  | cancelled
  | completed
deriving DecidableEq, Repr

/-- Row of the time_slots table. -/
structure Slot where
  id : Nat
  therapist_id : Nat
  slot_date : Nat
  start_time : Nat
  end_time : Nat
  is_available : Bool
deriving DecidableEq, Repr

/-- Row of the services table (read-only input to the engine). -/
structure Service where
  id : Nat
  name : String
  price : Nat
  duration : Nat
  is_active : Bool
deriving DecidableEq, Repr

/-- Row of the bookings table, with the service snapshot fields taken at
hold-creation time (createReservation insert, bookingController.js l.66-86). -/
structure Booking where
  id : Nat
  customer_id : Nat
  service_id : Nat
  therapist_id : Nat
  time_slot_id : Nat
  booking_date : Nat
  start_time : Nat
  end_time : Nat
  service_name : String
  service_price : Nat
  service_duration : Nat
  status : Status
  reservation_expires_at : Option Nat
  payment_status : String
  payment_amount : Nat
  notes : Option String
deriving DecidableEq, Repr

/-- The persistent store: the three tables the lifecycle engine touches. -/
structure Store where
  slots : List Slot
  services : List Service
  bookings : List Booking
deriving DecidableEq, Repr

/-- Supabase .single(): succeeds iff the filtered result is exactly one row. -/
def singleRow {α : Type} (rows : List α) : Option α :=
  match rows with
  | [r] => some r
  | _ => none

/-- getTimeDuration from utils/dateTime.js: end minus start, in minutes
(may be negative, hence Int). -/
def getTimeDuration (startTime endTime : Nat) : Int :=
  (endTime : Int) - (startTime : Int)

/-- addMinutes from utils/dateTime.js, on the minute timeline. -/
def addMinutes (now minutes : Nat) : Nat :=
  now + minutes

/-- The update from('time_slots').update({is_available: avail}).eq('id', sid):
it mutates every row matching the id filter, with no other condition. -/
def updateSlotAvailability (slots : List Slot) (sid : Nat) (avail : Bool) : List Slot :=
  slots.map (fun s => if s.id == sid then { s with is_available := avail } else s)

/-- The appointment instant used by the cancellation policy:
new Date(booking_date + "T" + start_time), on the minute timeline. -/
def appointmentTime (b : Booking) : Nat :=
  b.booking_date * 1440 + b.start_time

/-- Request body of POST /reservations (createReservation). -/
structure CreateRequest where
  customer_id : Nat
  service_id : Nat
  therapist_id : Nat
  time_slot_id : Nat
  notes : Option String
deriving DecidableEq, Repr

/-- Fault flags for the three fallible store writes of createReservation. -/
structure CreateFaults where
  insertFails : Bool
  slotUpdateFails : Bool
  compensationDeleteFails : Bool
deriving DecidableEq, Repr

def noCreateFaults : CreateFaults := ⟨false, false, false⟩

inductive CreateResult where
  | badSlot
  | badService
  | insertError
  | slotClaimError
  | created (b : Booking) (expiresAt : Nat)
deriving DecidableEq, Repr

/-- createReservation (bookingController.js l.18-130), with the suspension
point between the two parallel reads and the writes made explicit: the reads
evaluate against σr, the insert / slot update / compensation against σw.
The slot update of step 5 (l.97-100) filters on the slot id only. -/
def createReservationSeq (σr σw : Store) (rq : CreateRequest)
    (now timeoutMinutes newBookingId : Nat) (f : CreateFaults) :
    CreateResult × Store :=
  let slotRead := σr.slots.filter
    (fun s => s.id == rq.time_slot_id && s.therapist_id == rq.therapist_id && s.is_available)
  match singleRow slotRead with
  | none => (.badSlot, σw)
  | some timeSlot =>
    let svcRead := σr.services.filter (fun v => v.id == rq.service_id && v.is_active)
    match singleRow svcRead with
    | none => (.badService, σw)
    | some service =>
      let expiresAt := addMinutes now timeoutMinutes
      if f.insertFails then (.insertError, σw)
      else
        let booking : Booking :=
          { id := newBookingId
            customer_id := rq.customer_id
            service_id := rq.service_id
            therapist_id := rq.therapist_id
            time_slot_id := rq.time_slot_id
            booking_date := timeSlot.slot_date
            start_time := timeSlot.start_time
            end_time := timeSlot.end_time
            service_name := service.name
            service_price := service.price
            service_duration := service.duration
            status := .pending
            reservation_expires_at := some expiresAt
            payment_status := "pending"
            payment_amount := service.price
            notes := rq.notes }
        let σ1 : Store := { σw with bookings := σw.bookings ++ [booking] }
        if f.slotUpdateFails then
          if f.compensationDeleteFails then (.slotClaimError, σ1)
          else (.slotClaimError,
            { σ1 with bookings := σ1.bookings.filter (fun b => !(b.id == newBookingId)) })
        else
          (.created booking expiresAt,
            { σ1 with slots := updateSlotAvailability σ1.slots rq.time_slot_id false })

/-- createReservation run without interference: all store calls see the
same state. -/
def createReservation (σ : Store) (rq : CreateRequest)
    (now timeoutMinutes newBookingId : Nat) (f : CreateFaults) :
    CreateResult × Store :=
  createReservationSeq σ σ rq now timeoutMinutes newBookingId f

inductive ConfirmResult where
  | notFound
  | invalidState (st : Status)
  | expired
  | updateFailed
  | confirmed (b : Booking)
deriving DecidableEq, Repr

/-- The status/payment/expiry update confirmReservation performs
(bookingController.js l.175-184), filtered on the booking id only. -/
def confirmUpdate (id : Nat) (b : Booking) : Booking :=
  if b.id == id then
    { b with status := .confirmed, payment_status := "paid", reservation_expires_at := none }
  else b

/-- confirmReservation (bookingController.js l.138-206).  The expiry test is
new Date(reservation_expires_at) < new Date(); new Date(null) is the epoch,
hence the getD 0. -/
def confirmReservation (σ : Store) (id customer_id now : Nat) (updateFails : Bool) :
    ConfirmResult × Store :=
  match singleRow (σ.bookings.filter (fun b => b.id == id && b.customer_id == customer_id)) with
  | none => (.notFound, σ)
  | some booking =>
    if booking.status ≠ .pending then (.invalidState booking.status, σ)
    else if booking.reservation_expires_at.getD 0 < now then (.expired, σ)
    else if updateFails then (.updateFailed, σ)
    else
      (.confirmed (confirmUpdate id booking),
        { σ with bookings := σ.bookings.map (confirmUpdate id) })

/-- Fault flags for the fallible store writes of the two cancel variants. -/
structure CancelFaults where
  updateFails : Bool
  slotReleaseFails : Bool
  rollbackFails : Bool
deriving DecidableEq, Repr

def noCancelFaults : CancelFaults := ⟨false, false, false⟩

inductive CancelResult where
  | notFound
  | invalidState (st : Status)
  | tooLate
  | updateFailed
  | releaseFailed
  | cancelled (b : Booking)
deriving DecidableEq, Repr

/-- The update that marks a booking cancelled and clears its expiry
(bookingController.js l.416-424 and the admin variant), by booking id. -/
def cancelUpdate (id : Nat) (b : Booking) : Booking :=
  if b.id == id then { b with status := .cancelled, reservation_expires_at := none } else b

/-- The rollback update of the cancel variants: restore status and
reservation_expires_at to the values read before mutation
(bookingController.js l.441-447). -/
def cancelRollback (id : Nat) (prior : Booking) (b : Booking) : Booking :=
  if b.id == id then
    { b with status := prior.status, reservation_expires_at := prior.reservation_expires_at }
  else b

/-- Shared tail of the two cancel variants: update to cancelled, release the
slot, roll the booking back if the release fails. -/
def cancelSaga (σ : Store) (id : Nat) (booking : Booking) (f : CancelFaults) :
    CancelResult × Store :=
  if f.updateFails then (.updateFailed, σ)
  else
    let σ1 : Store := { σ with bookings := σ.bookings.map (cancelUpdate id) }
    if f.slotReleaseFails then
      if f.rollbackFails then (.releaseFailed, σ1)
      else (.releaseFailed,
        { σ1 with bookings := σ1.bookings.map (cancelRollback id booking) })
    else
      (.cancelled (cancelUpdate id booking),
        { σ1 with slots := updateSlotAvailability σ1.slots booking.time_slot_id true })

/-- cancelReservation (bookingController.js l.373-472): ownership check via
customer_id, state guard, minimum-notice policy for confirmed bookings, then
the cancel saga.  The policy compares (appointment - now) / 60 hours against
minCancelHours; on the minute timeline that is appointment - now <
minCancelHours * 60. -/
def cancelReservation (σ : Store) (id customer_id now minCancelHours : Nat)
    (f : CancelFaults) : CancelResult × Store :=
  match singleRow (σ.bookings.filter (fun b => b.id == id && b.customer_id == customer_id)) with
  | none => (.notFound, σ)
  | some booking =>
    if ¬(booking.status = .pending ∨ booking.status = .confirmed) then
      (.invalidState booking.status, σ)
    else if minCancelHours > 0 ∧ booking.status = .confirmed ∧
        (appointmentTime booking : Int) - (now : Int) < (minCancelHours : Int) * 60 then
      (.tooLate, σ)
    else cancelSaga σ id booking f

/-- adminCancelBooking (unnamed controller file l.576-665): same saga as
cancelReservation but with no ownership filter and no minimum-notice policy
check. -/
def adminCancelBooking (σ : Store) (id : Nat) (f : CancelFaults) :
    CancelResult × Store :=
  match singleRow (σ.bookings.filter (fun b => b.id == id)) with
  | none => (.notFound, σ)
  | some booking =>
    if ¬(booking.status = .pending ∨ booking.status = .confirmed) then
      (.invalidState booking.status, σ)
    else cancelSaga σ id booking f

/-- Fault flags for the fallible store writes of adminRescheduleBooking. -/
structure RescheduleFaults where
  bookingUpdateFails : Bool
  freeOldSlotFails : Bool
  reserveNewSlotFails : Bool
  leg2RollbackFails : Bool
  leg3RollbackBookingFails : Bool
  leg3RollbackSlotFails : Bool
deriving DecidableEq, Repr

def noRescheduleFaults : RescheduleFaults := ⟨false, false, false, false, false, false⟩

inductive RescheduleResult where
  | notFound
  | invalidState (st : Status)
  | badNewSlot
  | slotTooShort
  | updateFailed
  | freeOldFailed
  | reserveNewFailed
  | rescheduled (b : Booking)
deriving DecidableEq, Repr

/-- The booking-field update of reschedule leg 1: point the booking at the
new slot and copy its date/start/end (unnamed controller file l.732-740). -/
def rescheduleUpdate (id newSlotId : Nat) (newSlot : Slot) (b : Booking) : Booking :=
  if b.id == id then
    { b with time_slot_id := newSlotId, booking_date := newSlot.slot_date,
             start_time := newSlot.start_time, end_time := newSlot.end_time }
  else b

/-- The rollback of reschedule legs 2 and 3: restore the booking's old
slot reference, date, start and end (unnamed controller file l.772-780
and l.797-805). -/
def rescheduleRollback (id : Nat) (prior : Booking) (b : Booking) : Booking :=
  if b.id == id then
    { b with time_slot_id := prior.time_slot_id, booking_date := prior.booking_date,
             start_time := prior.start_time, end_time := prior.end_time }
  else b

/-- adminRescheduleBooking (unnamed controller file l.677-825), with the
suspension point between the reads (booking, new slot) and the three write
legs made explicit: reads against σr, writes against σw.  The leg-3 claim
of the new slot (l.790-793) filters on the slot id only. -/
def adminRescheduleBookingSeq (σr σw : Store) (id newSlotId : Nat)
    (f : RescheduleFaults) : RescheduleResult × Store :=
  match singleRow (σr.bookings.filter (fun b => b.id == id)) with
  | none => (.notFound, σw)
  | some booking =>
    if ¬(booking.status = .pending ∨ booking.status = .confirmed) then
      (.invalidState booking.status, σw)
    else
      match singleRow (σr.slots.filter
        (fun s => s.id == newSlotId && s.therapist_id == booking.therapist_id && s.is_available)) with
      | none => (.badNewSlot, σw)
      | some newSlot =>
        if getTimeDuration newSlot.start_time newSlot.end_time < (booking.service_duration : Int) then
          (.slotTooShort, σw)
        else if f.bookingUpdateFails then (.updateFailed, σw)
        else
          let σ1 : Store := { σw with bookings := σw.bookings.map (rescheduleUpdate id newSlotId newSlot) }
          if f.freeOldSlotFails then
            if f.leg2RollbackFails then (.freeOldFailed, σ1)
            else (.freeOldFailed,
              { σ1 with bookings := σ1.bookings.map (rescheduleRollback id booking) })
          else
            let σ2 : Store := { σ1 with slots := updateSlotAvailability σ1.slots booking.time_slot_id true }
            if f.reserveNewSlotFails then
              let σ3 : Store :=
                if f.leg3RollbackBookingFails then σ2
                else { σ2 with bookings := σ2.bookings.map (rescheduleRollback id booking) }
              let σ4 : Store :=
                if f.leg3RollbackSlotFails then σ3
                else { σ3 with slots := updateSlotAvailability σ3.slots booking.time_slot_id false }
              (.reserveNewFailed, σ4)
            else
              (.rescheduled (rescheduleUpdate id newSlotId newSlot booking),
                { σ2 with slots := updateSlotAvailability σ2.slots newSlotId false })

/-- adminRescheduleBooking run without interference. -/
def adminRescheduleBooking (σ : Store) (id newSlotId : Nat)
    (f : RescheduleFaults) : RescheduleResult × Store :=
  adminRescheduleBookingSeq σ σ id newSlotId f

/-- Fault flags for the three fallible store calls of the sweeper. -/
structure SweepFaults where
  fetchFails : Bool
  deleteFails : Bool
  releaseFails : Bool
deriving DecidableEq, Repr

def noSweepFaults : SweepFaults := ⟨false, false, false⟩

/-- The sweeper's selection filter (cleanupExpiredReservations.js l.24-29):
status = pending, reservation_expires_at < now, reservation_expires_at not
null. -/
def isExpiredPending (now : Nat) (b : Booking) : Bool :=
  b.status == .pending &&
    (match b.reservation_expires_at with
     | some t => t < now
     | none => false)

/-- cleanupExpiredReservations (cleanupExpiredReservations.js l.19-83):
select the expired pending bookings, delete them by their ids, then set
is_available = true on their slots unconditionally.  A fetch or delete error
returns 0 with no further action; a release error leaves the deletions in
place and still returns the number found.  time_slot_id is non-nullable
here, so the source's .filter(Boolean) on the slot ids is the identity. -/
def cleanupExpiredReservations (σ : Store) (now : Nat) (f : SweepFaults) :
    Nat × Store :=
  if f.fetchFails then (0, σ)
  else
    let expiredBookings := σ.bookings.filter (isExpiredPending now)
    if expiredBookings.length = 0 then (0, σ)
    else
      let timeSlotIds := expiredBookings.map (fun b => b.time_slot_id)
      let expiredIds := expiredBookings.map (fun b => b.id)
      if f.deleteFails then (0, σ)
      else
        let σ1 : Store := { σ with bookings := σ.bookings.filter (fun b => !(expiredIds.contains b.id)) }
        let σ2 : Store :=
          if timeSlotIds.length > 0 ∧ ¬f.releaseFails then
            { σ1 with slots := σ1.slots.map (fun s =>
                if timeSlotIds.contains s.id then { s with is_available := true } else s) }
          else σ1
        (expiredBookings.length, σ2)

/-- A booking that holds its slot: status pending or confirmed. -/
def activeBooking (b : Booking) : Bool :=
  b.status == Status.pending || b.status == Status.confirmed

/-- Number of pending-or-confirmed bookings referencing a slot id. -/
def countActive (l : List Booking) (sid : Nat) : Nat :=
  l.countP (fun b => b.time_slot_id == sid && activeBooking b)

def activeCount (σ : Store) (sid : Nat) : Nat :=
  countActive σ.bookings sid

/-- Central cross-entity invariant of the spec: a slot is unavailable iff
exactly one pending-or-confirmed booking references it. -/
def slotInvariant (σ : Store) : Prop :=
  ∀ s ∈ σ.slots, (s.is_available = false ↔ activeCount σ s.id = 1)

instance (σ : Store) : Decidable (slotInvariant σ) := by
  unfold slotInvariant; infer_instance

/-- Booking-level invariant of the spec: reservation_expires_at is non-null
iff the status is pending. -/
def bookingExpiryInvariant (σ : Store) : Prop :=
  ∀ b ∈ σ.bookings, (b.reservation_expires_at ≠ none ↔ b.status = Status.pending)

instance (σ : Store) : Decidable (bookingExpiryInvariant σ) := by
  unfold bookingExpiryInvariant; infer_instance

/-- Auxiliary inductive invariant for reachability: distinct slot ids,
distinct booking ids, and an available slot has no active booking while an
unavailable one has exactly one. -/
def strongInv (σ : Store) : Prop :=
  (σ.slots.map Slot.id).Nodup ∧ (σ.bookings.map Booking.id).Nodup ∧
    ∀ s ∈ σ.slots,
      (s.is_available = true → activeCount σ s.id = 0) ∧
      (s.is_available = false → activeCount σ s.id = 1)

/-- Store states reachable from an empty-bookings, all-slots-available
initial state through fault-free engine operations and sweeper runs. -/
inductive Reach : Store → Prop where
  | init (σ : Store) :
      (∀ s ∈ σ.slots, s.is_available = true) → (σ.slots.map Slot.id).Nodup →
      σ.bookings = [] → Reach σ
  | create (σ : Store) (rq : CreateRequest) (now ttl nid : Nat) :
      Reach σ → (∀ b ∈ σ.bookings, b.id ≠ nid) →
      Reach (createReservation σ rq now ttl nid noCreateFaults).2
  | confirmStep (σ : Store) (id cid now : Nat) :
      Reach σ → Reach (confirmReservation σ id cid now false).2
  | cancelStep (σ : Store) (id cid now mh : Nat) :
      Reach σ → Reach (cancelReservation σ id cid now mh noCancelFaults).2
  | adminCancelStep (σ : Store) (id : Nat) :
      Reach σ → Reach (adminCancelBooking σ id noCancelFaults).2
  | rescheduleStep (σ : Store) (id nsid : Nat) :
      Reach σ → Reach (adminRescheduleBooking σ id nsid noRescheduleFaults).2
  | sweepStep (σ : Store) (now : Nat) :
      Reach σ → Reach (cleanupExpiredReservations σ now noSweepFaults).2

/-! Concrete fixtures used in counterexamples and witnesses. -/

def slotA : Slot := ⟨1, 7, 100, 600, 660, true⟩

def slotAtaken : Slot := ⟨1, 7, 100, 600, 660, false⟩

def slotShort : Slot := ⟨1, 7, 100, 600, 630, true⟩

def slotB : Slot := ⟨2, 7, 101, 600, 700, true⟩

def slotBtaken : Slot := ⟨2, 7, 101, 600, 700, false⟩

def svc60 : Service := ⟨2, "massage", 80, 60, true⟩

def rqA : CreateRequest := ⟨9, 2, 7, 1, none⟩

def bookingPendingExpired : Booking :=
  ⟨10, 9, 2, 7, 1, 100, 600, 660, "massage", 80, 60, Status.pending, some 900, "pending", 80, none⟩

def bookingConfirmedA : Booking :=
  ⟨10, 9, 2, 7, 1, 100, 600, 660, "massage", 80, 60, Status.confirmed, none, "paid", 80, none⟩

/-- The row produced by the confirm update: status confirmed, payment paid,
expiry cleared. -/
def confirmedVersion (b : Booking) : Booking :=
  { b with
      status := .confirmed
      payment_status := "paid"
      reservation_expires_at := none }

/-- Row-level form of the expiry invariant. -/
def expOk (b : Booking) : Prop :=
  b.reservation_expires_at ≠ none ↔ b.status = Status.pending

def storeRaceRead : Store := ⟨[slotA], [svc60], []⟩

def storeRaceWrite : Store := ⟨[slotAtaken], [svc60], []⟩

def bookingRaceCreated : Booking :=
  ⟨50, 9, 2, 7, 1, 100, 600, 660, "massage", 80, 60, Status.pending, some 1005, "pending", 80, none⟩

def bookingShortCreated : Booking :=
  ⟨50, 9, 2, 7, 1, 100, 600, 630, "massage", 80, 60, Status.pending, some 1005, "pending", 80, none⟩

def storePolicyCex : Store := ⟨[slotAtaken], [svc60], [bookingConfirmedA]⟩

def bookingCancelledA : Booking :=
  ⟨10, 9, 2, 7, 1, 100, 600, 660, "massage", 80, 60, Status.cancelled, none, "paid", 80, none⟩

def storeResRead : Store := ⟨[slotAtaken, slotB], [svc60], [bookingConfirmedA]⟩

def storeResWrite : Store := ⟨[slotAtaken, slotBtaken], [svc60], [bookingConfirmedA]⟩

def bookingMovedB : Booking :=
  ⟨10, 9, 2, 7, 2, 101, 600, 700, "massage", 80, 60, Status.confirmed, none, "paid", 80, none⟩

def storeSweepCex : Store := ⟨[slotAtaken], [svc60], [bookingPendingExpired]⟩

/-- C1: counterexample.  The slot-claim update of create_hold is not
compare-and-swap: here the slot is already unavailable in the store the
writes act on (a concurrent actor claimed it between the read and the
update), yet the operation succeeds, keeps the inserted booking, and leaves
the slot claimed — instead of detecting zero guarded rows, deleting the
booking and returning a conflict as the claim states. -/
theorem createHold_slot_update_not_guarded_cex :
    (∀ s ∈ storeRaceWrite.slots, s.is_available = false) ∧
    createReservationSeq storeRaceRead storeRaceWrite rqA 1000 5 50 noCreateFaults
      = (.created bookingRaceCreated 1005, ⟨[slotAtaken], [svc60], [bookingRaceCreated]⟩) := by
  decide

/-- C2: counterexample.  A sweeper run whose slot-release store call fails
does not preserve the availability invariant: from an invariant-satisfying
state it deletes the expired pending booking but leaves the slot
unavailable, ending with is_available = false and zero active bookings. -/
theorem slotInvariant_sweeper_release_failure_cex :
    slotInvariant storeSweepCex ∧
    (cleanupExpiredReservations storeSweepCex 1000 ⟨false, false, true⟩).1 = 1 ∧
    ¬ slotInvariant (cleanupExpiredReservations storeSweepCex 1000 ⟨false, false, true⟩).2 := by
  decide

/-- C3: the code lacks the window-duration precondition its own step list
promises.  With a 30-minute slot window and a 60-minute service,
createReservation nevertheless creates the pending booking and claims the
slot instead of rejecting the request. -/
theorem createHold_missing_duration_check :
    getTimeDuration slotShort.start_time slotShort.end_time < (svc60.duration : Int) ∧
    createReservation ⟨[slotShort], [svc60], []⟩ rqA 1000 5 50 noCreateFaults
      = (.created bookingShortCreated 1005,
          ⟨[⟨1, 7, 100, 600, 630, false⟩], [svc60], [bookingShortCreated]⟩) := by
  decide

/-- C5: counterexample.  The leg-3 claim of the new slot is not guarded on
availability: the new slot is already unavailable in the store the writes
act on, yet reschedule succeeds and moves the booking instead of failing at
the claim step and compensating as the claim states. -/
theorem reschedule_claim_not_guarded_cex :
    (∀ s ∈ storeResWrite.slots, s.is_available = false) ∧
    adminRescheduleBookingSeq storeResRead storeResWrite 10 2 noRescheduleFaults
      = (.rescheduled bookingMovedB, ⟨[slotA, slotBtaken], [svc60], [bookingMovedB]⟩) := by
  decide

/-- C9: the admin cancel variant performs no minimum-notice check.  One hour
before a confirmed appointment, with a 24-hour minimum configured, the
customer variant rejects with the too-late error and no mutation, but the
admin variant cancels the booking and releases the slot. -/
theorem adminCancel_missing_notice_policy :
    cancelReservation storePolicyCex 10 9 144540 24 noCancelFaults = (.tooLate, storePolicyCex) ∧
    adminCancelBooking storePolicyCex 10 noCancelFaults
      = (.cancelled bookingCancelledA, ⟨[slotA], [svc60], [bookingCancelledA]⟩) := by
  decide

/-! Helper lemmas. -/

lemma singleRow_eq_some {α : Type} {l : List α} {x : α} (h : singleRow l = some x) :
    l = [x] := by
  cases l with
  | nil => simp [singleRow] at h
  | cons a t =>
    cases t with
    | nil => simp only [singleRow, Option.some.injEq] at h; rw [h]
    | cons b u => simp [singleRow] at h

lemma of_filter_singleton {α : Type} {l : List α} {p : α → Bool} {x : α}
    (h : l.filter p = [x]) : x ∈ l ∧ p x = true := by
  have hx : x ∈ l.filter p := by rw [h]; exact List.mem_singleton_self x
  exact ⟨(List.mem_filter.mp hx).1, (List.mem_filter.mp hx).2⟩

/-- In a list with distinct keys, a map that can only change the element
with a given key shifts countP by the change at that one element. -/
lemma countP_map_single {α β : Type} (key : α → β) (p : α → Bool) (u : α → α) :
    ∀ (l : List α) (b₀ : α), b₀ ∈ l → (l.map key).Nodup →
      (∀ b ∈ l, key b ≠ key b₀ → u b = b) →
      (l.map u).countP p + (if p b₀ then 1 else 0)
        = l.countP p + (if p (u b₀) then 1 else 0) := by
  intro l
  induction l with
  | nil => intro b₀ h; cases h
  | cons a t ih =>
    intro b₀ hmem hnd hu
    have hnd' : key a ∉ t.map key ∧ (t.map key).Nodup :=
      List.nodup_cons.mp (List.map_cons key a t ▸ hnd)
    rcases List.mem_cons.mp hmem with rfl | hbt
    · have ht : t.map u = t := by
        refine (List.map_congr_left ?_).trans (List.map_id t)
        intro b hb
        refine hu b (List.mem_cons_of_mem _ hb) ?_
        intro hk
        exact hnd'.1 (hk ▸ List.mem_map_of_mem key hb)
      simp only [List.map_cons, List.countP_cons, ht]
      omega
    · have hka : key a ≠ key b₀ := by
        intro hk
        exact hnd'.1 (hk ▸ List.mem_map_of_mem key hbt)
      have hua : u a = a := hu a (List.mem_cons_self a t) hka
      have := ih b₀ hbt hnd'.2 (fun b hb => hu b (List.mem_cons_of_mem _ hb))
      simp only [List.map_cons, List.countP_cons, hua]
      omega

/-- Roll back after cancel-update is the identity on the stored rows. -/
lemma cancelSaga_release_failure (σ : Store) (id : Nat) (b₀ : Booking)
    (hnd : (σ.bookings.map Booking.id).Nodup) (hmem : b₀ ∈ σ.bookings)
    (hid : b₀.id = id) :
    cancelSaga σ id b₀ ⟨false, true, false⟩ = (.releaseFailed, σ) := by
  unfold cancelSaga
  simp only [Bool.false_eq_true, if_false, if_true]
  have hback : ∀ b ∈ σ.bookings, cancelRollback id b₀ (cancelUpdate id b) = b := by
    intro b hb
    by_cases hbid : b.id = id
    · have hbb : b = b₀ := List.inj_on_of_nodup_map hnd hb hmem (hbid.trans hid.symm)
      subst hbb
      cases b with
      | mk bid _ _ _ _ _ _ _ _ _ _ _ _ _ _ _ => simp_all [cancelUpdate, cancelRollback]
    · simp [cancelUpdate, cancelRollback, hbid]
  have : (σ.bookings.map (cancelUpdate id)).map (cancelRollback id b₀) = σ.bookings := by
    rw [List.map_map]
    exact (List.map_congr_left (by intro b hb; exact hback b hb)).trans (List.map_id _)
  simp [this]

lemma cancelReservation_release_failure (σ : Store) (id cid now mh : Nat)
    (hnd : (σ.bookings.map Booking.id).Nodup) :
    (cancelReservation σ id cid now mh ⟨false, true, false⟩).2 = σ ∧
      ∀ b, (cancelReservation σ id cid now mh ⟨false, true, false⟩).1 ≠ .cancelled b := by
  unfold cancelReservation
  cases hs : singleRow (σ.bookings.filter (fun b => b.id == id && b.customer_id == cid)) with
  | none => exact ⟨rfl, by intro b h; cases h⟩
  | some booking =>
    obtain ⟨hmem, hpred⟩ := of_filter_singleton (singleRow_eq_some hs)
    simp only [Bool.and_eq_true, beq_iff_eq] at hpred
    dsimp only
    split_ifs with h1 h2
    · exact ⟨rfl, by intro b h; cases h⟩
    · rw [cancelSaga_release_failure σ id booking hnd hmem hpred.1]
      exact ⟨rfl, by intro b h; cases h⟩
    · exact ⟨rfl, by intro b h; cases h⟩

lemma adminCancelBooking_release_failure (σ : Store) (id : Nat)
    (hnd : (σ.bookings.map Booking.id).Nodup) :
    (adminCancelBooking σ id ⟨false, true, false⟩).2 = σ ∧
      ∀ b, (adminCancelBooking σ id ⟨false, true, false⟩).1 ≠ .cancelled b := by
  unfold adminCancelBooking
  cases hs : singleRow (σ.bookings.filter (fun b => b.id == id)) with
  | none => exact ⟨rfl, by intro b h; cases h⟩
  | some booking =>
    obtain ⟨hmem, hpred⟩ := of_filter_singleton (singleRow_eq_some hs)
    simp only [beq_iff_eq] at hpred
    dsimp only
    split_ifs with h1
    · rw [cancelSaga_release_failure σ id booking hnd hmem hpred]
      exact ⟨rfl, by intro b h; cases h⟩
    · exact ⟨rfl, by intro b h; cases h⟩

/-- C4: cancellation is all-or-nothing.  In both cancel variants, when the
run reaches the slot-release step and that step fails, the rollback restores
the booking read before mutation verbatim, so (for a store with distinct
booking ids) the saga with a failing release leaves the entire store in its
pre-call state, and no success result is ever reported. -/
theorem cancel_release_failure_all_or_nothing (σ : Store) (id cid now mh : Nat)
    (hnd : (σ.bookings.map Booking.id).Nodup) :
    ((cancelReservation σ id cid now mh ⟨false, true, false⟩).2 = σ ∧
      ∀ b, (cancelReservation σ id cid now mh ⟨false, true, false⟩).1 ≠ .cancelled b) ∧
    ((adminCancelBooking σ id ⟨false, true, false⟩).2 = σ ∧
      ∀ b, (adminCancelBooking σ id ⟨false, true, false⟩).1 ≠ .cancelled b) :=
  ⟨cancelReservation_release_failure σ id cid now mh hnd,
    adminCancelBooking_release_failure σ id hnd⟩

/-- C4 witness: the theorem applied to a concrete store holding one
confirmed booking. -/
theorem cancel_release_failure_all_or_nothing_witness :
    (storePolicyCex.bookings.map Booking.id).Nodup ∧
      (cancelReservation storePolicyCex 10 9 0 0 ⟨false, true, false⟩).2 = storePolicyCex :=
  ⟨by decide,
    (cancel_release_failure_all_or_nothing storePolicyCex 10 9 0 0 (by decide)).1.1⟩

lemma filter_fresh_append (l : List Booking) (bk : Booking) (nid : Nat)
    (hfresh : ∀ b ∈ l, b.id ≠ nid) (hbk : bk.id = nid) :
    (l ++ [bk]).filter (fun b => !(b.id == nid)) = l := by
  rw [List.filter_append]
  have h1 : l.filter (fun b => !(b.id == nid)) = l :=
    List.filter_eq_self.mpr (fun b hb => by simp [hfresh b hb])
  have h2 : [bk].filter (fun b => !(b.id == nid)) = [] := by
    simp [List.filter, hbk]
  simp [h1, h2]

/-- C1 (amended): in create_hold the slot-claim update is filtered on the
slot id only (see the counterexample for the missing availability guard);
whenever the slot update errors, the operation deletes the booking it just
inserted and returns an error, leaving the store in its pre-call state —
provided the inserted booking id is fresh, the run either rejects on its
reads or compensates, and it never reports success. -/
theorem createHold_error_compensation (σ : Store) (rq : CreateRequest)
    (now ttl nid : Nat) (hfresh : ∀ b ∈ σ.bookings, b.id ≠ nid) :
    (createReservation σ rq now ttl nid ⟨false, true, false⟩).2 = σ ∧
    ((createReservation σ rq now ttl nid ⟨false, true, false⟩).1 = .badSlot ∨
      (createReservation σ rq now ttl nid ⟨false, true, false⟩).1 = .badService ∨
      (createReservation σ rq now ttl nid ⟨false, true, false⟩).1 = .slotClaimError) := by
  unfold createReservation
  rcases h1 : singleRow (σ.slots.filter
    (fun s => s.id == rq.time_slot_id && s.therapist_id == rq.therapist_id && s.is_available))
    with _ | ts
  · simp only [createReservationSeq, h1]
    simp
  · rcases h2 : singleRow (σ.services.filter (fun v => v.id == rq.service_id && v.is_active))
      with _ | sv
    · simp only [createReservationSeq, h1, h2]
      simp
    · simp only [createReservationSeq, h1, h2, Bool.false_eq_true, if_false, if_true]
      rw [filter_fresh_append σ.bookings _ nid hfresh rfl]
      simp

/-- C1 witness: the theorem applied to a store with one available slot and
no bookings. -/
theorem createHold_error_compensation_witness :
    (∀ b ∈ storeRaceRead.bookings, b.id ≠ 50) ∧
      (createReservation storeRaceRead rqA 1000 5 50 ⟨false, true, false⟩).2 = storeRaceRead :=
  ⟨by decide, (createHold_error_compensation storeRaceRead rqA 1000 5 50 (by decide)).1⟩

lemma rescheduleRollback_restores (l : List Booking) (id nsid : Nat) (ns : Slot)
    (b₀ : Booking) (hnd : (l.map Booking.id).Nodup) (hmem : b₀ ∈ l) (hid : b₀.id = id) :
    (l.map (rescheduleUpdate id nsid ns)).map (rescheduleRollback id b₀) = l := by
  rw [List.map_map]
  refine (List.map_congr_left ?_).trans (List.map_id _)
  intro b hb
  show rescheduleRollback id b₀ (rescheduleUpdate id nsid ns b) = b
  by_cases hbid : b.id = id
  · have hbb : b = b₀ := List.inj_on_of_nodup_map hnd hb hmem (hbid.trans hid.symm)
    subst hbb
    cases b with
    | mk bid _ _ _ _ _ _ _ _ _ _ _ _ _ _ _ => simp_all [rescheduleUpdate, rescheduleRollback]
  · simp [rescheduleUpdate, rescheduleRollback, hbid]

lemma slot_reclaim_restores (sl : List Slot) (sid : Nat)
    (hold : ∀ s ∈ sl, s.id = sid → s.is_available = false) :
    updateSlotAvailability (updateSlotAvailability sl sid true) sid false = sl := by
  unfold updateSlotAvailability
  rw [List.map_map]
  refine (List.map_congr_left ?_).trans (List.map_id _)
  intro s hs
  by_cases h : s.id = sid
  · have hav := hold s hs h
    cases s with
    | mk sid2 _ _ _ _ _ => simp_all
  · simp [h]

/-- C5 (amended): the leg-3 claim of the new slot is filtered on the slot id
only, with no availability guard (see the counterexample); whenever that
update errors and the compensation calls succeed, the compensation restores
the booking's old slot reference, date, start and end and re-claims the old
slot (is_available = false), aborting with an error; since the old slot was
unavailable before the call, both the booking's fields and the old slot's
availability end exactly as they were, and no success is reported. -/
theorem reschedule_leg3_failure_compensation (σ : Store) (id nsid : Nat)
    (hnd : (σ.bookings.map Booking.id).Nodup)
    (hold : ∀ b ∈ σ.bookings, b.id = id →
      ∀ s ∈ σ.slots, s.id = b.time_slot_id → s.is_available = false) :
    (adminRescheduleBooking σ id nsid ⟨false, false, true, false, false, false⟩).2 = σ ∧
      ∀ b, (adminRescheduleBooking σ id nsid
        ⟨false, false, true, false, false, false⟩).1 ≠ .rescheduled b := by
  unfold adminRescheduleBooking
  rcases h1 : singleRow (σ.bookings.filter (fun b => b.id == id)) with _ | booking
  · simp only [adminRescheduleBookingSeq, h1]
    simp
  · obtain ⟨hmem, hpred⟩ := of_filter_singleton (singleRow_eq_some h1)
    simp only [beq_iff_eq] at hpred
    by_cases hst : booking.status = Status.pending ∨ booking.status = Status.confirmed
    · rcases h2 : singleRow (σ.slots.filter
        (fun s => s.id == nsid && s.therapist_id == booking.therapist_id && s.is_available))
        with _ | newSlot
      · simp only [adminRescheduleBookingSeq, h1, h2]
        simp [hst]
      · by_cases hdur : getTimeDuration newSlot.start_time newSlot.end_time
          < (booking.service_duration : Int)
        · simp only [adminRescheduleBookingSeq, h1, h2]
          simp [hst, hdur]
        · have hb := rescheduleRollback_restores σ.bookings id nsid newSlot booking hnd hmem hpred
          have hsl := slot_reclaim_restores σ.slots booking.time_slot_id (hold booking hmem hpred)
          simp only [adminRescheduleBookingSeq, h1, h2, if_neg (not_not_intro hst),
            if_neg hdur, Bool.false_eq_true, if_false, if_true, eq_self_iff_true]
          rw [hb, hsl]
          simp
    · simp only [adminRescheduleBookingSeq, h1]
      simp [hst]

/-- C5 witness: the amended theorem applied to a store with one confirmed
booking on an unavailable slot and a second available slot. -/
theorem reschedule_leg3_failure_compensation_witness :
    (storeResRead.bookings.map Booking.id).Nodup ∧
      (adminRescheduleBooking storeResRead 10 2
        ⟨false, false, true, false, false, false⟩).2 = storeResRead :=
  ⟨by decide,
    (reschedule_leg3_failure_compensation storeResRead 10 2 (by decide) (by decide)).1⟩

lemma filter_eq_singleton_of_unique {α : Type} {l : List α} {p : α → Bool} {b : α}
    (hnd : l.Nodup) (hb : b ∈ l) (hpb : p b = true)
    (huniq : ∀ a ∈ l, p a = true → a = b) : l.filter p = [b] := by
  induction l with
  | nil => cases hb
  | cons a t ih =>
    rcases List.nodup_cons.mp hnd with ⟨hat, hndt⟩
    rcases List.mem_cons.mp hb with rfl | hbt
    · have hnone : ∀ x ∈ t, ¬ p x = true := fun x hx hpx =>
        hat ((huniq x (List.mem_cons_of_mem _ hx) hpx) ▸ hx)
      rw [List.filter_cons_of_pos hpb, List.filter_eq_nil_iff.mpr hnone]
    · have hpa : ¬ p a = true := by
        intro hpa
        have hab := huniq a (List.mem_cons_self a t) hpa
        subst hab
        exact hat hbt
      rw [List.filter_cons_of_neg hpa]
      exact ih hndt hbt (fun x hx hpx => huniq x (List.mem_cons_of_mem _ hx) hpx)

/-- C8: behaviour of confirm.  With distinct booking ids: a missing
(id, customer) pair yields not-found with no mutation; a non-pending
booking yields the invalid-state error with no mutation; a pending booking
whose expiry is in the past yields the expired error with no mutation; and
otherwise the booking becomes confirmed with payment paid and expiry
cleared, and the updated booking is returned. -/
theorem confirm_spec (σ : Store) (id cid now : Nat)
    (hnd : (σ.bookings.map Booking.id).Nodup) :
    ((¬ ∃ b ∈ σ.bookings, b.id = id ∧ b.customer_id = cid) →
      confirmReservation σ id cid now false = (.notFound, σ)) ∧
    (∀ b ∈ σ.bookings, b.id = id → b.customer_id = cid →
      (b.status ≠ .pending →
        confirmReservation σ id cid now false = (.invalidState b.status, σ)) ∧
      (b.status = .pending → b.reservation_expires_at.getD 0 < now →
        confirmReservation σ id cid now false = (.expired, σ)) ∧
      (b.status = .pending → ¬ b.reservation_expires_at.getD 0 < now →
        confirmReservation σ id cid now false
          = (.confirmed (confirmedVersion b),
              { σ with bookings := σ.bookings.map (confirmUpdate id) }))) := by
  constructor
  · intro hno
    have hf : σ.bookings.filter (fun b => b.id == id && b.customer_id == cid) = [] := by
      refine List.filter_eq_nil_iff.mpr ?_
      intro a ha hp
      simp only [Bool.and_eq_true, beq_iff_eq] at hp
      exact hno ⟨a, ha, hp⟩
    simp only [confirmReservation, hf]
    rfl
  · intro b hb hbid hbcid
    have hf : σ.bookings.filter (fun x => x.id == id && x.customer_id == cid) = [b] := by
      refine filter_eq_singleton_of_unique (List.Nodup.of_map Booking.id hnd) hb ?_ ?_
      · simp [hbid, hbcid]
      · intro a ha hp
        simp only [Bool.and_eq_true, beq_iff_eq] at hp
        exact List.inj_on_of_nodup_map hnd ha hb (hp.1.trans hbid.symm)
    refine ⟨?_, ?_, ?_⟩
    · intro hst
      simp only [confirmReservation, hf, singleRow]
      rw [if_pos hst]
    · intro hst hexp
      simp only [confirmReservation, hf, singleRow]
      rw [if_neg (not_not_intro hst), if_pos hexp]
    · intro hst hexp
      simp only [confirmReservation, hf, singleRow]
      rw [if_neg (not_not_intro hst), if_neg hexp]
      have hcu : confirmUpdate id b = confirmedVersion b := by
        simp [confirmUpdate, confirmedVersion, hbid]
      simp [hcu]

/-- C8 witness: confirming a live pending booking succeeds and flips it to
confirmed/paid with expiry cleared. -/
theorem confirm_spec_witness :
    (storeSweepCex.bookings.map Booking.id).Nodup ∧
      confirmReservation storeSweepCex 10 9 800 false
        = (.confirmed bookingConfirmedA, ⟨[slotAtaken], [svc60], [bookingConfirmedA]⟩) := by
  refine ⟨by decide, ?_⟩
  have h := ((confirm_spec storeSweepCex 10 9 800 (by decide)).2
    bookingPendingExpired (by decide) rfl rfl).2.2 rfl (by decide)
  exact h

lemma isExpiredPending_iff (now : Nat) (b : Booking) :
    isExpiredPending now b = true ↔
      b.status = Status.pending ∧ ∃ t, b.reservation_expires_at = some t ∧ t < now := by
  unfold isExpiredPending
  cases h : b.reservation_expires_at with
  | none => simp [h]
  | some t => simp [h]

lemma expired_ids_contains (l : List Booking) (now : Nat)
    (hnd : (l.map Booking.id).Nodup) (b : Booking) (hb : b ∈ l) :
    ((l.filter (isExpiredPending now)).map (fun x => x.id)).contains b.id
      = isExpiredPending now b := by
  by_cases hexp : isExpiredPending now b = true
  · have : b.id ∈ (l.filter (isExpiredPending now)).map (fun x => x.id) :=
      List.mem_map_of_mem _ (List.mem_filter.mpr ⟨hb, hexp⟩)
    simp only [hexp]
    simpa [List.contains, List.elem_eq_mem] using this
  · have : b.id ∉ (l.filter (isExpiredPending now)).map (fun x => x.id) := by
      intro hmem
      obtain ⟨c, hc, hcid⟩ := List.mem_map.mp hmem
      obtain ⟨hcl, hcexp⟩ := List.mem_filter.mp hc
      have : c = b := List.inj_on_of_nodup_map hnd hcl hb hcid
      exact hexp (this ▸ hcexp)
    simp only [Bool.not_eq_true] at hexp
    simp only [hexp]
    simpa [List.contains, List.elem_eq_mem] using this

/-- C6: one sweeper run.  Its selection is exactly the pending bookings with
a non-null expiry earlier than now; with no match any run is a no-op
returning 0; with matches (and distinct booking ids) the fault-free run
deletes exactly the selected rows, sets is_available = true on each
selected booking's slot unconditionally, and returns the number selected;
and a failing slot release leaves the completed deletions in place and
still returns that number. -/
theorem sweeper_run_spec (σ : Store) (now : Nat) :
    (∀ b, b ∈ σ.bookings.filter (isExpiredPending now) ↔
        b ∈ σ.bookings ∧ b.status = Status.pending ∧
          ∃ t, b.reservation_expires_at = some t ∧ t < now) ∧
    (σ.bookings.filter (isExpiredPending now) = [] →
      ∀ f, cleanupExpiredReservations σ now f = (0, σ)) ∧
    ((σ.bookings.map Booking.id).Nodup →
      σ.bookings.filter (isExpiredPending now) ≠ [] →
      cleanupExpiredReservations σ now noSweepFaults
          = ((σ.bookings.filter (isExpiredPending now)).length,
              { σ with
                  bookings := σ.bookings.filter (fun b => !(isExpiredPending now b))
                  slots := σ.slots.map (fun s =>
                    if ((σ.bookings.filter (isExpiredPending now)).map
                        (fun b => b.time_slot_id)).contains s.id
                    then { s with is_available := true } else s) }) ∧
        cleanupExpiredReservations σ now ⟨false, false, true⟩
          = ((σ.bookings.filter (isExpiredPending now)).length,
              { σ with
                  bookings := σ.bookings.filter (fun b => !(isExpiredPending now b)) })) := by
  refine ⟨?_, ?_, ?_⟩
  · intro b
    rw [List.mem_filter]
    rw [isExpiredPending_iff]
  · intro hf f
    unfold cleanupExpiredReservations
    by_cases hfe : f.fetchFails
    · simp [hfe]
    · simp [hfe, hf]
  · intro hnd hne
    have hlen : (σ.bookings.filter (isExpiredPending now)).length ≠ 0 := by
      simpa [List.length_eq_zero] using hne
    have hdel : σ.bookings.filter
        (fun b => !(((σ.bookings.filter (isExpiredPending now)).map
          (fun x => x.id)).contains b.id))
        = σ.bookings.filter (fun b => !(isExpiredPending now b)) := by
      refine List.filter_congr ?_
      intro b hb
      rw [expired_ids_contains σ.bookings now hnd b hb]
    constructor
    · unfold cleanupExpiredReservations
      simp only [noSweepFaults, Bool.false_eq_true, if_false, if_neg hlen, hdel]
      have hc : 0 < (List.map (fun b => b.time_slot_id)
          (List.filter (isExpiredPending now) σ.bookings)).length ∧ ¬False :=
        ⟨Nat.pos_of_ne_zero (by simpa using hlen), not_false⟩
      rw [if_pos hc]
    · unfold cleanupExpiredReservations
      simp only [Bool.false_eq_true, if_false, if_neg hlen, hdel]
      rw [if_neg (fun h => h.2 trivial)]

/-- C10: sweeper idempotence.  After one fault-free run, no booking matches
the selection filter any more, so an immediate second run at the same
instant selects nothing, mutates nothing and returns 0. -/
theorem sweeper_idempotent (σ : Store) (now : Nat) :
    ((cleanupExpiredReservations σ now noSweepFaults).2).bookings.filter
        (isExpiredPending now) = [] ∧
    cleanupExpiredReservations ((cleanupExpiredReservations σ now noSweepFaults).2)
        now noSweepFaults
      = (0, (cleanupExpiredReservations σ now noSweepFaults).2) := by
  have h1 : ((cleanupExpiredReservations σ now noSweepFaults).2).bookings.filter
      (isExpiredPending now) = [] := by
    unfold cleanupExpiredReservations
    simp only [noSweepFaults, Bool.false_eq_true, if_false]
    by_cases hf : (σ.bookings.filter (isExpiredPending now)).length = 0
    · rw [if_pos hf]
      dsimp only
      exact List.length_eq_zero.mp hf
    · rw [if_neg hf]
      dsimp only
      rw [apply_ite Store.bookings]
      dsimp only
      rw [ite_self]
      rw [List.filter_filter]
      refine List.filter_eq_nil_iff.mpr ?_
      intro b hb
      cases hexp : isExpiredPending now b with
      | false => simp [hexp]
      | true =>
        have hm : b.id ∈ (σ.bookings.filter (isExpiredPending now)).map
            (fun x => x.id) :=
          List.mem_map_of_mem _ (List.mem_filter.mpr ⟨hb, hexp⟩)
        simp [hexp, List.contains, List.elem_eq_mem, hm]
  refine ⟨h1, ?_⟩
  generalize hg : (cleanupExpiredReservations σ now noSweepFaults).2 = σ1 at h1 ⊢
  unfold cleanupExpiredReservations
  simp only [noSweepFaults, Bool.false_eq_true, if_false]
  rw [if_pos (by rw [h1]; rfl)]

/-- C6 witness: the run spec applied at a store holding one expired pending
hold on an unavailable slot. -/
theorem sweeper_run_spec_witness :
    (storeSweepCex.bookings.map Booking.id).Nodup ∧
      storeSweepCex.bookings.filter (isExpiredPending 1000) ≠ [] ∧
      cleanupExpiredReservations storeSweepCex 1000 noSweepFaults
        = (1, ⟨[slotA], [svc60], []⟩) := by
  refine ⟨by decide, by decide, ?_⟩
  exact ((sweeper_run_spec storeSweepCex 1000).2.2 (by decide) (by decide)).1

lemma expOk_mem_append {l : List Booking} {bk : Booking}
    (hl : ∀ b ∈ l, expOk b) (hbk : expOk bk) : ∀ b ∈ l ++ [bk], expOk b := by
  intro b hb
  rcases List.mem_append.mp hb with h | h
  · exact hl b h
  · rw [List.mem_singleton.mp h]
    exact hbk

lemma expOk_mem_filter {l : List Booking} (p : Booking → Bool)
    (hl : ∀ b ∈ l, expOk b) : ∀ b ∈ l.filter p, expOk b :=
  fun b hb => hl b (List.mem_of_mem_filter hb)

lemma expOk_mem_map {l : List Booking} {u : Booking → Booking}
    (hl : ∀ b ∈ l, expOk b) (hu : ∀ b ∈ l, expOk b → expOk (u b)) :
    ∀ b ∈ l.map u, expOk b := by
  intro b hb
  obtain ⟨a, ha, rfl⟩ := List.mem_map.mp hb
  exact hu a ha (hl a ha)

lemma expOk_confirmUpdate (id : Nat) (b : Booking) (h : expOk b) :
    expOk (confirmUpdate id b) := by
  unfold confirmUpdate
  by_cases hid : b.id == id
  · simp [hid, expOk]
  · simp [hid, h]

lemma expOk_cancelUpdate (id : Nat) (b : Booking) (h : expOk b) :
    expOk (cancelUpdate id b) := by
  unfold cancelUpdate
  by_cases hid : b.id == id
  · simp [hid, expOk]
  · simp [hid, h]

lemma expOk_cancelRollback (id : Nat) (b₀ b : Booking) (h₀ : expOk b₀)
    (h : expOk b) : expOk (cancelRollback id b₀ b) := by
  unfold cancelRollback
  by_cases hid : b.id == id
  · simpa [hid, expOk] using h₀
  · simp [hid, h]

lemma expOk_rescheduleUpdate (id nsid : Nat) (ns : Slot) (b : Booking)
    (h : expOk b) : expOk (rescheduleUpdate id nsid ns b) := by
  unfold rescheduleUpdate
  by_cases hid : b.id == id
  · simpa [hid, expOk] using h
  · simp [hid, h]

lemma expOk_rescheduleRollback (id : Nat) (b₀ b : Booking)
    (h : expOk b) : expOk (rescheduleRollback id b₀ b) := by
  unfold rescheduleRollback
  by_cases hid : b.id == id
  · simpa [hid, expOk] using h
  · simp [hid, h]

lemma BInv_createSeq (σr σw : Store) (rq : CreateRequest) (now ttl nid : Nat)
    (f : CreateFaults) (h : ∀ b ∈ σw.bookings, expOk b) :
    ∀ b ∈ (createReservationSeq σr σw rq now ttl nid f).2.bookings, expOk b := by
  rcases h1 : singleRow (σr.slots.filter
    (fun s => s.id == rq.time_slot_id && s.therapist_id == rq.therapist_id && s.is_available))
    with _ | ts
  · simp only [createReservationSeq, h1]
    exact h
  · rcases h2 : singleRow (σr.services.filter (fun v => v.id == rq.service_id && v.is_active))
      with _ | sv
    · simp only [createReservationSeq, h1, h2]
      exact h
    · simp only [createReservationSeq, h1, h2]
      split_ifs <;>
        first
          | exact h
          | exact expOk_mem_append h (by simp [expOk])
          | exact expOk_mem_filter _ (expOk_mem_append h (by simp [expOk]))

lemma BInv_confirm (σ : Store) (id cid now : Nat) (uf : Bool)
    (h : ∀ b ∈ σ.bookings, expOk b) :
    ∀ b ∈ (confirmReservation σ id cid now uf).2.bookings, expOk b := by
  rcases h1 : singleRow (σ.bookings.filter (fun b => b.id == id && b.customer_id == cid))
    with _ | booking
  · simp only [confirmReservation, h1]
    exact h
  · simp only [confirmReservation, h1]
    split_ifs <;>
      first
        | exact h
        | exact expOk_mem_map h (fun b _ hb2 => expOk_confirmUpdate id b hb2)

lemma BInv_cancelSaga (σ : Store) (id : Nat) (b₀ : Booking) (f : CancelFaults)
    (h : ∀ b ∈ σ.bookings, expOk b) (h₀ : expOk b₀) :
    ∀ b ∈ (cancelSaga σ id b₀ f).2.bookings, expOk b := by
  simp only [cancelSaga]
  split_ifs <;>
    first
      | exact h
      | exact expOk_mem_map h (fun b _ hb2 => expOk_cancelUpdate id b hb2)
      | exact expOk_mem_map
          (expOk_mem_map h (fun b _ hb2 => expOk_cancelUpdate id b hb2))
          (fun b _ hb2 => expOk_cancelRollback id b₀ b h₀ hb2)

lemma BInv_cancel (σ : Store) (id cid now mh : Nat) (f : CancelFaults)
    (h : ∀ b ∈ σ.bookings, expOk b) :
    ∀ b ∈ (cancelReservation σ id cid now mh f).2.bookings, expOk b := by
  rcases h1 : singleRow (σ.bookings.filter (fun b => b.id == id && b.customer_id == cid))
    with _ | booking
  · simp only [cancelReservation, h1]
    exact h
  · obtain ⟨hmem, _⟩ := of_filter_singleton (singleRow_eq_some h1)
    simp only [cancelReservation, h1]
    split_ifs <;>
      first
        | exact h
        | exact BInv_cancelSaga σ id booking f h (h booking hmem)

lemma BInv_adminCancel (σ : Store) (id : Nat) (f : CancelFaults)
    (h : ∀ b ∈ σ.bookings, expOk b) :
    ∀ b ∈ (adminCancelBooking σ id f).2.bookings, expOk b := by
  rcases h1 : singleRow (σ.bookings.filter (fun b => b.id == id)) with _ | booking
  · simp only [adminCancelBooking, h1]
    exact h
  · obtain ⟨hmem, _⟩ := of_filter_singleton (singleRow_eq_some h1)
    simp only [adminCancelBooking, h1]
    split_ifs <;>
      first
        | exact h
        | exact BInv_cancelSaga σ id booking f h (h booking hmem)

lemma BInv_rescheduleSeq (σr σw : Store) (id nsid : Nat) (f : RescheduleFaults)
    (h : ∀ b ∈ σw.bookings, expOk b) :
    ∀ b ∈ (adminRescheduleBookingSeq σr σw id nsid f).2.bookings, expOk b := by
  rcases h1 : singleRow (σr.bookings.filter (fun b => b.id == id)) with _ | booking
  · simp only [adminRescheduleBookingSeq, h1]
    exact h
  · rcases h2 : singleRow (σr.slots.filter
      (fun s => s.id == nsid && s.therapist_id == booking.therapist_id && s.is_available))
      with _ | newSlot
    · simp only [adminRescheduleBookingSeq, h1, h2]
      split_ifs <;> exact h
    · simp only [adminRescheduleBookingSeq, h1, h2]
      split_ifs <;>
        first
          | exact h
          | exact expOk_mem_map h
              (fun b _ hb2 => expOk_rescheduleUpdate id nsid newSlot b hb2)
          | exact expOk_mem_map
              (expOk_mem_map h (fun b _ hb2 => expOk_rescheduleUpdate id nsid newSlot b hb2))
              (fun b _ hb2 => expOk_rescheduleRollback id booking b hb2)

lemma BInv_sweep (σ : Store) (now : Nat) (f : SweepFaults)
    (h : ∀ b ∈ σ.bookings, expOk b) :
    ∀ b ∈ (cleanupExpiredReservations σ now f).2.bookings, expOk b := by
  simp only [cleanupExpiredReservations]
  split_ifs <;>
    first
      | exact h
      | exact expOk_mem_filter _ h

lemma created_booking_shape (σr σw : Store) (rq : CreateRequest)
    (now ttl nid : Nat) (f : CreateFaults) (b : Booking) (e : Nat)
    (hres : (createReservationSeq σr σw rq now ttl nid f).1 = .created b e) :
    b.status = Status.pending ∧ b.reservation_expires_at = some e := by
  rcases h1 : singleRow (σr.slots.filter
    (fun s => s.id == rq.time_slot_id && s.therapist_id == rq.therapist_id && s.is_available))
    with _ | ts
  · simp [createReservationSeq, h1] at hres
  · rcases h2 : singleRow (σr.services.filter (fun v => v.id == rq.service_id && v.is_active))
      with _ | sv
    · simp [createReservationSeq, h1, h2] at hres
    · simp only [createReservationSeq, h1, h2] at hres
      split_ifs at hres
      all_goals simp at hres
      obtain ⟨hb, he⟩ := hres
      subst hb
      subst he
      exact ⟨rfl, rfl⟩

lemma reach_bookingExpiryInvariant (σ : Store) (hr : Reach σ) :
    bookingExpiryInvariant σ := by
  induction hr with
  | init σ0 hav hnd hemp =>
    intro b hb
    rw [hemp] at hb
    cases hb
  | create σ0 rq now ttl nid hr hfresh ih =>
    exact BInv_createSeq σ0 σ0 rq now ttl nid noCreateFaults ih
  | confirmStep σ0 id cid now hr ih =>
    exact BInv_confirm σ0 id cid now false ih
  | cancelStep σ0 id cid now mh hr ih =>
    exact BInv_cancel σ0 id cid now mh noCancelFaults ih
  | adminCancelStep σ0 id hr ih =>
    exact BInv_adminCancel σ0 id noCancelFaults ih
  | rescheduleStep σ0 id nsid hr ih =>
    exact BInv_rescheduleSeq σ0 σ0 id nsid noRescheduleFaults ih
  | sweepStep σ0 now hr ih =>
    exact BInv_sweep σ0 now noSweepFaults ih

/-- C7: the expiry/pending invariant.  Every operation of the engine — under
any combination of store faults, including failed compensations — maps a
store satisfying (expires_at non-null iff status pending) to a store still
satisfying it; create_hold moves out of pending only together with clearing
or setting expiry in the same update, and every successfully created hold is
pending with the returned non-null expiry. -/
theorem expiry_iff_pending_preserved :
    (∀ (σr σw : Store) (rq : CreateRequest) (now ttl nid : Nat) (f : CreateFaults),
      bookingExpiryInvariant σw →
        bookingExpiryInvariant (createReservationSeq σr σw rq now ttl nid f).2) ∧
    (∀ (σ : Store) (id cid now : Nat) (uf : Bool),
      bookingExpiryInvariant σ →
        bookingExpiryInvariant (confirmReservation σ id cid now uf).2) ∧
    (∀ (σ : Store) (id cid now mh : Nat) (f : CancelFaults),
      bookingExpiryInvariant σ →
        bookingExpiryInvariant (cancelReservation σ id cid now mh f).2) ∧
    (∀ (σ : Store) (id : Nat) (f : CancelFaults),
      bookingExpiryInvariant σ →
        bookingExpiryInvariant (adminCancelBooking σ id f).2) ∧
    (∀ (σr σw : Store) (id nsid : Nat) (f : RescheduleFaults),
      bookingExpiryInvariant σw →
        bookingExpiryInvariant (adminRescheduleBookingSeq σr σw id nsid f).2) ∧
    (∀ (σ : Store) (now : Nat) (f : SweepFaults),
      bookingExpiryInvariant σ →
        bookingExpiryInvariant (cleanupExpiredReservations σ now f).2) ∧
    (∀ (σr σw : Store) (rq : CreateRequest) (now ttl nid : Nat) (f : CreateFaults)
        (b : Booking) (e : Nat),
      (createReservationSeq σr σw rq now ttl nid f).1 = .created b e →
        b.status = Status.pending ∧ b.reservation_expires_at = some e) ∧
    (∀ σ : Store, Reach σ → bookingExpiryInvariant σ) :=
  ⟨BInv_createSeq, BInv_confirm, BInv_cancel, BInv_adminCancel,
    BInv_rescheduleSeq, BInv_sweep, created_booking_shape, reach_bookingExpiryInvariant⟩

/-- C7 witness: the create conjunct applied at a concrete store. -/
theorem expiry_iff_pending_preserved_witness :
    bookingExpiryInvariant storeRaceRead ∧
      bookingExpiryInvariant
        (createReservationSeq storeRaceRead storeRaceRead rqA 1000 5 50 noCreateFaults).2 :=
  ⟨by decide,
    expiry_iff_pending_preserved.1 storeRaceRead storeRaceRead rqA 1000 5 50
      noCreateFaults (by decide)⟩

lemma countP_split {α : Type} (l : List α) (p q : α → Bool) :
    l.countP p = l.countP (fun a => p a && q a) + l.countP (fun a => p a && !q a) := by
  induction l with
  | nil => simp
  | cons a t ih =>
    simp only [List.countP_cons, ih]
    cases hp : p a <;> cases hq : q a <;> simp [hp, hq] <;> omega

lemma countActive_append (l : List Booking) (bk : Booking) (sid : Nat) :
    countActive (l ++ [bk]) sid
      = countActive l sid
        + (if bk.time_slot_id == sid && activeBooking bk then 1 else 0) := by
  simp [countActive, List.countP_append, List.countP_singleton]

lemma countActive_map_single (l : List Booking) (u : Booking → Booking)
    (b₀ : Booking) (hmem : b₀ ∈ l) (hnd : (l.map Booking.id).Nodup)
    (hu : ∀ b ∈ l, b.id ≠ b₀.id → u b = b) (sid : Nat) :
    countActive (l.map u) sid
        + (if b₀.time_slot_id == sid && activeBooking b₀ then 1 else 0)
      = countActive l sid
        + (if (u b₀).time_slot_id == sid && activeBooking (u b₀) then 1 else 0) :=
  countP_map_single Booking.id _ u l b₀ hmem hnd hu

lemma countActive_pos (l : List Booking) (b : Booking) (hb : b ∈ l)
    (hsid : b.time_slot_id == sid && activeBooking b) : 0 < countActive l sid := by
  unfold countActive
  exact List.countP_pos_iff.mpr ⟨b, hb, hsid⟩

lemma slotIds_update (sl : List Slot) (sid : Nat) (av : Bool) :
    (updateSlotAvailability sl sid av).map Slot.id = sl.map Slot.id := by
  unfold updateSlotAvailability
  rw [List.map_map]
  refine List.map_congr_left ?_
  intro s _
  by_cases h : s.id = sid <;> simp [h]

lemma bookingIds_map (l : List Booking) (u : Booking → Booking)
    (hu : ∀ b, (u b).id = b.id) : (l.map u).map Booking.id = l.map Booking.id := by
  rw [List.map_map]
  refine List.map_congr_left ?_
  intro b _
  exact hu b

lemma confirmUpdate_id (id : Nat) (b : Booking) : (confirmUpdate id b).id = b.id := by
  unfold confirmUpdate
  split <;> rfl

lemma cancelUpdate_id (id : Nat) (b : Booking) : (cancelUpdate id b).id = b.id := by
  unfold cancelUpdate
  split <;> rfl

lemma cancelRollback_id (id : Nat) (b₀ b : Booking) :
    (cancelRollback id b₀ b).id = b.id := by
  unfold cancelRollback
  split <;> rfl

lemma rescheduleUpdate_id (id nsid : Nat) (ns : Slot) (b : Booking) :
    (rescheduleUpdate id nsid ns b).id = b.id := by
  unfold rescheduleUpdate
  split <;> rfl

lemma rescheduleRollback_id (id : Nat) (b₀ b : Booking) :
    (rescheduleRollback id b₀ b).id = b.id := by
  unfold rescheduleRollback
  split <;> rfl

lemma strongInv_insert_claim (σ : Store) (bk : Booking) (ts : Slot)
    (hinv : strongInv σ) (hts : ts ∈ σ.slots) (htsav : ts.is_available = true)
    (hbk_sid : bk.time_slot_id = ts.id) (hbk_act : activeBooking bk = true)
    (hfresh : ∀ b ∈ σ.bookings, b.id ≠ bk.id) :
    strongInv { slots := updateSlotAvailability σ.slots ts.id false
                services := σ.services
                bookings := σ.bookings ++ [bk] } := by
  obtain ⟨hs, hb, hcnt⟩ := hinv
  have hcnt0 : countActive σ.bookings ts.id = 0 := (hcnt ts hts).1 htsav
  refine ⟨?_, ?_, ?_⟩
  · show ((updateSlotAvailability σ.slots ts.id false).map Slot.id).Nodup
    rw [slotIds_update]
    exact hs
  · show ((σ.bookings ++ [bk]).map Booking.id).Nodup
    rw [List.map_append, List.nodup_append]
    refine ⟨hb, List.nodup_singleton _, ?_⟩
    intro x hx hxm
    obtain ⟨c, hc, rfl⟩ := List.mem_map.mp hx
    have : c.id = bk.id := by simpa using hxm
    exact hfresh c hc this
  · intro s' hs'
    obtain ⟨s, hsmem, rfl⟩ := List.mem_map.mp hs'
    by_cases hsid : s.id = ts.id
    · have hsts : s = ts := List.inj_on_of_nodup_map hs hsmem hts hsid
      subst hsts
      rw [if_pos (by simp)]
      refine ⟨?_, ?_⟩
      · intro hav
        simp at hav
      · intro _
        show countActive (σ.bookings ++ [bk]) s.id = 1
        rw [countActive_append, hsid, hcnt0]
        simp [hbk_sid, hbk_act]
    · rw [if_neg (by simpa using hsid)]
      have hadd : countActive (σ.bookings ++ [bk]) s.id = countActive σ.bookings s.id := by
        rw [countActive_append]
        have hne : (bk.time_slot_id == s.id) = false := by
          simp [hbk_sid]
          exact fun h => hsid h.symm
        simp [hne]
      exact ⟨fun hav => hadd.trans ((hcnt s hsmem).1 hav),
        fun hav => hadd.trans ((hcnt s hsmem).2 hav)⟩

lemma strongInv_create (σ : Store) (rq : CreateRequest) (now ttl nid : Nat)
    (hfresh : ∀ b ∈ σ.bookings, b.id ≠ nid) (h : strongInv σ) :
    strongInv (createReservation σ rq now ttl nid noCreateFaults).2 := by
  unfold createReservation
  rcases h1 : singleRow (σ.slots.filter
    (fun s => s.id == rq.time_slot_id && s.therapist_id == rq.therapist_id && s.is_available))
    with _ | ts
  · simpa only [createReservationSeq, h1] using h
  · rcases h2 : singleRow (σ.services.filter (fun v => v.id == rq.service_id && v.is_active))
      with _ | sv
    · simpa only [createReservationSeq, h1, h2] using h
    · obtain ⟨htsmem, htspred⟩ := of_filter_singleton (singleRow_eq_some h1)
      simp only [Bool.and_eq_true, beq_iff_eq] at htspred
      simp only [createReservationSeq, h1, h2, noCreateFaults, Bool.false_eq_true,
        if_false, if_true]
      rw [← htspred.1.1]
      exact strongInv_insert_claim σ _ ts h htsmem htspred.2 (by rw [htspred.1.1]) rfl
        (by intro b hb; exact hfresh b hb)

lemma strongInv_confirm (σ : Store) (id cid now : Nat) (h : strongInv σ) :
    strongInv (confirmReservation σ id cid now false).2 := by
  rcases h1 : singleRow (σ.bookings.filter (fun b => b.id == id && b.customer_id == cid))
    with _ | booking
  · simpa only [confirmReservation, h1] using h
  · obtain ⟨hmem, hpred⟩ := of_filter_singleton (singleRow_eq_some h1)
    simp only [Bool.and_eq_true, beq_iff_eq] at hpred
    by_cases hst : booking.status ≠ Status.pending
    · simpa only [confirmReservation, h1, if_pos hst] using h
    · by_cases hexp : booking.reservation_expires_at.getD 0 < now
      · simpa only [confirmReservation, h1, if_neg hst, if_pos hexp] using h
      · simp only [confirmReservation, h1, if_neg hst, if_neg hexp, Bool.false_eq_true,
          if_false]
        obtain ⟨hs, hb, hcnt⟩ := h
        have hstp : booking.status = Status.pending := not_not.mp hst
        have hu : ∀ b ∈ σ.bookings, b.id ≠ booking.id → confirmUpdate id b = b := by
          intro b _ hbid
          simp only [confirmUpdate, beq_iff_eq]
          rw [if_neg (fun hh => hbid (hh.trans hpred.1.symm))]
        refine ⟨hs, ?_, ?_⟩
        · show ((σ.bookings.map (confirmUpdate id)).map Booking.id).Nodup
          rw [bookingIds_map _ _ (confirmUpdate_id id)]
          exact hb
        · intro s hsmem
          have key := countActive_map_single σ.bookings (confirmUpdate id) booking hmem hb hu s.id
          have hub_t : (confirmUpdate id booking).time_slot_id = booking.time_slot_id := by
            unfold confirmUpdate
            split <;> rfl
          have hub_a : activeBooking (confirmUpdate id booking) = true := by
            unfold confirmUpdate
            rw [if_pos (by simp [hpred.1])]
            simp [activeBooking]
          have hab : activeBooking booking = true := by
            simp [activeBooking, hstp]
          rw [hub_t, hub_a, hab] at key
          have hsame : countActive (σ.bookings.map (confirmUpdate id)) s.id
              = countActive σ.bookings s.id := by
            omega
          exact ⟨fun hav => hsame.trans ((hcnt s hsmem).1 hav),
            fun hav => hsame.trans ((hcnt s hsmem).2 hav)⟩

lemma strongInv_cancelSaga (σ : Store) (id : Nat) (b₀ : Booking)
    (h : strongInv σ) (hmem : b₀ ∈ σ.bookings) (hid : b₀.id = id)
    (hact : activeBooking b₀ = true) :
    strongInv (cancelSaga σ id b₀ noCancelFaults).2 := by
  obtain ⟨hs, hb, hcnt⟩ := h
  simp only [activeCount] at hcnt
  simp only [cancelSaga, noCancelFaults, Bool.false_eq_true, if_false]
  have hu : ∀ b ∈ σ.bookings, b.id ≠ b₀.id → cancelUpdate id b = b := by
    intro b _ hbid
    simp only [cancelUpdate, beq_iff_eq]
    rw [if_neg (fun hh => hbid (hh.trans hid.symm))]
  have hub_t : (cancelUpdate id b₀).time_slot_id = b₀.time_slot_id := by
    unfold cancelUpdate
    split <;> rfl
  have hub_a : activeBooking (cancelUpdate id b₀) = false := by
    unfold cancelUpdate
    rw [if_pos (by simp [hid])]
    simp [activeBooking]
  refine ⟨?_, ?_, ?_⟩
  · show ((updateSlotAvailability σ.slots b₀.time_slot_id true).map Slot.id).Nodup
    rw [slotIds_update]
    exact hs
  · show ((σ.bookings.map (cancelUpdate id)).map Booking.id).Nodup
    rw [bookingIds_map _ _ (cancelUpdate_id id)]
    exact hb
  · intro s' hs'
    obtain ⟨s, hsmem, rfl⟩ := List.mem_map.mp hs'
    have key := countActive_map_single σ.bookings (cancelUpdate id) b₀ hmem hb hu s.id
    rw [hub_t, hub_a] at key
    by_cases hsid : s.id = b₀.time_slot_id
    · have hbeq : (b₀.time_slot_id == s.id) = true := by simp [hsid]
      rw [hbeq, hact] at key
      have hpos : 0 < countActive σ.bookings s.id :=
        countActive_pos _ b₀ hmem (by simp [hsid, hact])
      have hsav : s.is_available = false := by
        cases hsa : s.is_available with
        | false => rfl
        | true =>
          have := (hcnt s hsmem).1 hsa
          omega
      have hcnt1 : countActive σ.bookings s.id = 1 := (hcnt s hsmem).2 hsav
      rw [if_pos (by simp [hsid])]
      refine ⟨fun _ => ?_, fun hh => by simp at hh⟩
      show countActive (σ.bookings.map (cancelUpdate id)) s.id = 0
      simp at key
      omega
    · have hbeq : (b₀.time_slot_id == s.id) = false := by
        simp
        exact fun hh => hsid hh.symm
      rw [hbeq] at key
      simp at key
      rw [if_neg (by simpa using hsid)]
      exact ⟨fun hav => key.trans ((hcnt s hsmem).1 hav),
        fun hav => key.trans ((hcnt s hsmem).2 hav)⟩

lemma strongInv_cancel (σ : Store) (id cid now mh : Nat) (h : strongInv σ) :
    strongInv (cancelReservation σ id cid now mh noCancelFaults).2 := by
  rcases h1 : singleRow (σ.bookings.filter (fun b => b.id == id && b.customer_id == cid))
    with _ | booking
  · simpa only [cancelReservation, h1] using h
  · obtain ⟨hmem, hpred⟩ := of_filter_singleton (singleRow_eq_some h1)
    simp only [Bool.and_eq_true, beq_iff_eq] at hpred
    by_cases hst : booking.status = Status.pending ∨ booking.status = Status.confirmed
    · by_cases hpol : mh > 0 ∧ booking.status = Status.confirmed ∧
        (appointmentTime booking : Int) - (now : Int) < (mh : Int) * 60
      · simpa only [cancelReservation, h1, if_neg (not_not_intro hst), if_pos hpol] using h
      · simp only [cancelReservation, h1, if_neg (not_not_intro hst), if_neg hpol]
        exact strongInv_cancelSaga σ id booking ⟨(h.1), h.2.1, h.2.2⟩ hmem hpred.1
          (by rcases hst with hh | hh <;> simp [activeBooking, hh])
    · simpa only [cancelReservation, h1, if_pos hst] using h

lemma strongInv_adminCancel (σ : Store) (id : Nat) (h : strongInv σ) :
    strongInv (adminCancelBooking σ id noCancelFaults).2 := by
  rcases h1 : singleRow (σ.bookings.filter (fun b => b.id == id)) with _ | booking
  · simpa only [adminCancelBooking, h1] using h
  · obtain ⟨hmem, hpred⟩ := of_filter_singleton (singleRow_eq_some h1)
    simp only [beq_iff_eq] at hpred
    by_cases hst : booking.status = Status.pending ∨ booking.status = Status.confirmed
    · simp only [adminCancelBooking, h1, if_neg (not_not_intro hst)]
      exact strongInv_cancelSaga σ id booking h hmem hpred
        (by rcases hst with hh | hh <;> simp [activeBooking, hh])
    · simpa only [adminCancelBooking, h1, if_pos hst] using h

lemma updateSlot_comp (sl : List Slot) (a b : Nat) (hab : b ≠ a) :
    updateSlotAvailability (updateSlotAvailability sl a true) b false
      = sl.map (fun s => if s.id == b then { s with is_available := false }
          else if s.id == a then { s with is_available := true } else s) := by
  unfold updateSlotAvailability
  rw [List.map_map]
  refine List.map_congr_left ?_
  intro s _
  show (fun t => if t.id == b then { t with is_available := false } else t)
      (if s.id == a then { s with is_available := true } else s)
    = if s.id == b then { s with is_available := false }
        else if s.id == a then { s with is_available := true } else s
  by_cases h1 : s.id = a
  · have hnb : (s.id == b) = false := by
      simp [h1]
      exact fun hh => hab (hh.symm)
    simp [h1, hnb]
  · by_cases h2 : s.id = b
    · simp [h1, h2, hab]
    · simp [h1, h2]

lemma strongInv_reschedule (σ : Store) (id nsid : Nat) (h : strongInv σ) :
    strongInv (adminRescheduleBooking σ id nsid noRescheduleFaults).2 := by
  unfold adminRescheduleBooking
  rcases h1 : singleRow (σ.bookings.filter (fun b => b.id == id)) with _ | booking
  · simpa only [adminRescheduleBookingSeq, h1] using h
  · obtain ⟨hmem, hpredb⟩ := of_filter_singleton (singleRow_eq_some h1)
    simp only [beq_iff_eq] at hpredb
    by_cases hst : booking.status = Status.pending ∨ booking.status = Status.confirmed
    · rcases h2 : singleRow (σ.slots.filter
        (fun s => s.id == nsid && s.therapist_id == booking.therapist_id && s.is_available))
        with _ | newSlot
      · simpa only [adminRescheduleBookingSeq, h1, h2, if_neg (not_not_intro hst)] using h
      · obtain ⟨hnsmem, hnspred⟩ := of_filter_singleton (singleRow_eq_some h2)
        simp only [Bool.and_eq_true, beq_iff_eq] at hnspred
        by_cases hdur : getTimeDuration newSlot.start_time newSlot.end_time
            < (booking.service_duration : Int)
        · simpa only [adminRescheduleBookingSeq, h1, h2, if_neg (not_not_intro hst),
            if_pos hdur] using h
        · simp only [adminRescheduleBookingSeq, h1, h2, if_neg (not_not_intro hst),
            if_neg hdur, noRescheduleFaults, Bool.false_eq_true, if_false]
          obtain ⟨hs, hb, hcnt⟩ := h
          simp only [activeCount] at hcnt
          have hact : activeBooking booking = true := by
            rcases hst with hh | hh <;> simp [activeBooking, hh]
          have hnsid : newSlot.id = nsid := hnspred.1.1
          have hnsav : newSlot.is_available = true := hnspred.2
          have hcnt_ns : countActive σ.bookings nsid = 0 := by
            have := (hcnt newSlot hnsmem).1 hnsav
            rwa [hnsid] at this
          have hneq : nsid ≠ booking.time_slot_id := by
            intro he
            have hpos : 0 < countActive σ.bookings nsid :=
              countActive_pos _ booking hmem (by simp [he, hact])
            omega
          have hu : ∀ b ∈ σ.bookings, b.id ≠ booking.id →
              rescheduleUpdate id nsid newSlot b = b := by
            intro b _ hbid
            simp only [rescheduleUpdate, beq_iff_eq]
            rw [if_neg (fun hh => hbid (hh.trans hpredb.symm))]
          have hub_t : (rescheduleUpdate id nsid newSlot booking).time_slot_id = nsid := by
            unfold rescheduleUpdate
            rw [if_pos (by simp [hpredb])]
          have hub_a : activeBooking (rescheduleUpdate id nsid newSlot booking)
              = activeBooking booking := by
            unfold rescheduleUpdate
            rw [if_pos (by simp [hpredb])]
            simp [activeBooking]
          have hcomp := updateSlot_comp σ.slots booking.time_slot_id nsid hneq
          refine ⟨?_, ?_, ?_⟩
          · show ((updateSlotAvailability
                (updateSlotAvailability σ.slots booking.time_slot_id true) nsid false).map
                  Slot.id).Nodup
            rw [slotIds_update, slotIds_update]
            exact hs
          · show ((σ.bookings.map (rescheduleUpdate id nsid newSlot)).map Booking.id).Nodup
            rw [bookingIds_map _ _ (rescheduleUpdate_id id nsid newSlot)]
            exact hb
          · intro s0 hs0
            have hs0m : s0 ∈ σ.slots.map (fun s =>
                if s.id == nsid then { s with is_available := false }
                else if s.id == booking.time_slot_id then { s with is_available := true }
                else s) := by
              rw [← hcomp]
              exact hs0
            obtain ⟨s, hsmem, rfl⟩ := List.mem_map.mp hs0m
            have key := countActive_map_single σ.bookings
              (rescheduleUpdate id nsid newSlot) booking hmem hb hu s.id
            rw [hub_t, hub_a, hact] at key
            by_cases hsnew : s.id = nsid
            · have hsns : s = newSlot :=
                List.inj_on_of_nodup_map hs hsmem hnsmem (hsnew.trans hnsid.symm)
            
              rw [if_pos (by simp [hsnew])]
              have hbeq1 : (booking.time_slot_id == s.id) = false := by
                simp [hsnew]
                exact fun hh => hneq hh.symm
              have hbeq2 : (nsid == s.id) = true := by simp [hsnew]
              rw [hbeq1, hbeq2] at key
              simp at key
              have hcnt0 : countActive σ.bookings s.id = 0 := by
                rw [hsnew]
                exact hcnt_ns
              refine ⟨fun hh => by simp at hh, fun _ => ?_⟩
              show countActive (σ.bookings.map (rescheduleUpdate id nsid newSlot)) s.id = 1
              omega
            · rw [if_neg (by simpa using hsnew)]
              by_cases hsold : s.id = booking.time_slot_id
              · rw [if_pos (by simp [hsold])]
                have hbeq1 : (booking.time_slot_id == s.id) = true := by simp [hsold]
                have hbeq2 : (nsid == s.id) = false := by
                  simp [hsold]
                  exact fun hh => hneq hh
                rw [hbeq1, hbeq2] at key
                simp at key
                have hpos : 0 < countActive σ.bookings s.id :=
                  countActive_pos _ booking hmem (by simp [hsold, hact])
                have hsav : s.is_available = false := by
                  cases hsa : s.is_available with
                  | false => rfl
                  | true =>
                    have := (hcnt s hsmem).1 hsa
                    omega
                have hcnt1 : countActive σ.bookings s.id = 1 := (hcnt s hsmem).2 hsav
                refine ⟨fun _ => ?_, fun hh => by simp at hh⟩
                show countActive (σ.bookings.map (rescheduleUpdate id nsid newSlot)) s.id = 0
                omega
              · rw [if_neg (by simpa using hsold)]
                have hbeq1 : (booking.time_slot_id == s.id) = false := by
                  simp
                  exact fun hh => hsold hh.symm
                have hbeq2 : (nsid == s.id) = false := by
                  simp
                  exact fun hh => hsnew hh.symm
                rw [hbeq1, hbeq2] at key
                simp at key
                exact ⟨fun hav => key.trans ((hcnt s hsmem).1 hav),
                  fun hav => key.trans ((hcnt s hsmem).2 hav)⟩
    · simpa only [adminRescheduleBookingSeq, h1, if_pos hst] using h

lemma slotIds_map (sl : List Slot) (u : Slot → Slot)
    (hu : ∀ s, (u s).id = s.id) : (sl.map u).map Slot.id = sl.map Slot.id := by
  rw [List.map_map]
  refine List.map_congr_left ?_
  intro s _
  exact hu s

lemma strongInv_sweep (σ : Store) (now : Nat) (h : strongInv σ) :
    strongInv (cleanupExpiredReservations σ now noSweepFaults).2 := by
  obtain ⟨hs, hb, hcnt⟩ := h
  simp only [activeCount] at hcnt
  unfold cleanupExpiredReservations
  simp only [noSweepFaults, Bool.false_eq_true, if_false]
  by_cases hlen : (σ.bookings.filter (isExpiredPending now)).length = 0
  · rw [if_pos hlen]
    exact ⟨hs, hb, fun s hsm => ⟨(hcnt s hsm).1, (hcnt s hsm).2⟩⟩
  · rw [if_neg hlen]
    have hc : 0 < (List.map (fun b => b.time_slot_id)
        (List.filter (isExpiredPending now) σ.bookings)).length ∧ ¬False :=
      ⟨Nat.pos_of_ne_zero (by simpa using hlen), not_false⟩
    rw [if_pos hc]
    have hdel : σ.bookings.filter
        (fun b => !(((σ.bookings.filter (isExpiredPending now)).map
          (fun x => x.id)).contains b.id))
        = σ.bookings.filter (fun b => !(isExpiredPending now b)) := by
      refine List.filter_congr ?_
      intro b hbm
      rw [expired_ids_contains σ.bookings now hb b hbm]
    rw [hdel]
    refine ⟨?_, ?_, ?_⟩
    · show ((σ.slots.map (fun s =>
          if ((σ.bookings.filter (isExpiredPending now)).map
              (fun b => b.time_slot_id)).contains s.id
          then { s with is_available := true } else s)).map Slot.id).Nodup
      rw [slotIds_map _ _ (fun s => by split <;> rfl)]
      exact hs
    · show (((σ.bookings.filter (fun b => !(isExpiredPending now b))).map
          Booking.id)).Nodup
      exact List.Nodup.sublist (List.Sublist.map _ (List.filter_sublist _)) hb
    · intro s0 hs0
      obtain ⟨s, hsmem, rfl⟩ := List.mem_map.mp hs0
      have hsplit := countP_split σ.bookings
        (fun b => b.time_slot_id == s.id && activeBooking b) (isExpiredPending now)
      have hmono : σ.bookings.countP
            (fun b => (b.time_slot_id == s.id && activeBooking b) && isExpiredPending now b)
          ≤ σ.bookings.countP (fun b => b.time_slot_id == s.id && activeBooking b) :=
        List.countP_mono_left (fun x _ hpx => by
          simp only [Bool.and_eq_true] at hpx ⊢
          exact hpx.1)
      by_cases hrel : (((σ.bookings.filter (isExpiredPending now)).map
          (fun b => b.time_slot_id)).contains s.id) = true
      · rw [if_pos hrel]
        have hsin : s.id ∈ (σ.bookings.filter (isExpiredPending now)).map
            (fun b => b.time_slot_id) := by
          simpa [List.contains, List.elem_eq_mem] using hrel
        obtain ⟨e, he_f, he_id⟩ := List.mem_map.mp hsin
        obtain ⟨he_mem, he_exp⟩ := List.mem_filter.mp he_f
        have he_pend : e.status = Status.pending := ((isExpiredPending_iff now e).mp he_exp).1
        have he_act : activeBooking e = true := by simp [activeBooking, he_pend]
        have hpos : 0 < countActive σ.bookings s.id :=
          countActive_pos _ e he_mem (by simp [he_id, he_act])
        have hsav : s.is_available = false := by
          cases hsa : s.is_available with
          | false => rfl
          | true =>
            have := (hcnt s hsmem).1 hsa
            omega
        have hcnt1 : countActive σ.bookings s.id = 1 := (hcnt s hsmem).2 hsav
        have hboth : 0 < σ.bookings.countP
            (fun b => (b.time_slot_id == s.id && activeBooking b) && isExpiredPending now b) :=
          List.countP_pos_iff.mpr ⟨e, he_mem, by simp [he_id, he_act, he_exp]⟩
        refine ⟨fun _ => ?_, fun hh => by simp at hh⟩
        show countActive (σ.bookings.filter (fun b => !(isExpiredPending now b))) s.id = 0
        unfold countActive at hcnt1 ⊢
        rw [List.countP_filter]
        omega
      · rw [if_neg hrel]
        have hzero : σ.bookings.countP
            (fun b => (b.time_slot_id == s.id && activeBooking b) && isExpiredPending now b)
            = 0 := by
          refine List.countP_eq_zero.mpr ?_
          intro e hem hpe
          simp only [Bool.and_eq_true] at hpe
          obtain ⟨⟨htid, _⟩, hexp⟩ := hpe
          refine hrel ?_
          have : s.id ∈ (σ.bookings.filter (isExpiredPending now)).map
              (fun b => b.time_slot_id) :=
            List.mem_map.mpr ⟨e, List.mem_filter.mpr ⟨hem, hexp⟩, by simpa using htid⟩
          simpa [List.contains, List.elem_eq_mem] using this
        have hsame : countActive (σ.bookings.filter (fun b => !(isExpiredPending now b))) s.id
            = countActive σ.bookings s.id := by
          unfold countActive
          rw [List.countP_filter]
          omega
        exact ⟨fun hav => hsame.trans ((hcnt s hsmem).1 hav),
          fun hav => hsame.trans ((hcnt s hsmem).2 hav)⟩

lemma reach_strongInv (σ : Store) (hr : Reach σ) : strongInv σ := by
  induction hr with
  | init σ0 hav hnd hemp =>
    refine ⟨hnd, ?_, ?_⟩
    · rw [hemp]
      exact List.nodup_nil
    · intro s hsm
      constructor
      · intro _
        simp [activeCount, countActive, hemp]
      · intro hfalse
        exact absurd (hav s hsm) (by simp [hfalse])
  | create σ0 rq now ttl nid hr hfresh ih =>
    exact strongInv_create σ0 rq now ttl nid hfresh ih
  | confirmStep σ0 id cid now hr ih =>
    exact strongInv_confirm σ0 id cid now ih
  | cancelStep σ0 id cid now mh hr ih =>
    exact strongInv_cancel σ0 id cid now mh ih
  | adminCancelStep σ0 id hr ih =>
    exact strongInv_adminCancel σ0 id ih
  | rescheduleStep σ0 id nsid hr ih =>
    exact strongInv_reschedule σ0 id nsid ih
  | sweepStep σ0 now hr ih =>
    exact strongInv_sweep σ0 now ih

/-- C2 (amended): for every store reachable from an all-available,
no-bookings initial state through fault-free engine operations and sweeper
runs, a slot's is_available flag is false iff exactly one pending or
confirmed booking references it.  (The counterexample shows a sweeper run
with a failing slot-release store call violates the invariant, so
fault-free execution is assumed here.) -/
theorem slotInvariant_reachable (σ : Store) (hr : Reach σ) : slotInvariant σ := by
  obtain ⟨_, _, hcnt⟩ := reach_strongInv σ hr
  intro s hsm
  constructor
  · exact (hcnt s hsm).2
  · intro h1
    cases hsa : s.is_available with
    | false => rfl
    | true =>
      have := (hcnt s hsm).1 hsa
      rw [this] at h1
      cases h1

/-- C2 witness: the amended theorem applied to a concrete initial store. -/
theorem slotInvariant_reachable_witness : slotInvariant storeRaceRead :=
  slotInvariant_reachable storeRaceRead
    (Reach.init storeRaceRead (by decide) (by decide) rfl)
